import Mathlib

/-!
Verification development for the pico upload-assets slice.

Source files embedded:
* `filehandlers/assets/handler.go` — the `UploadAssetHandler` (session getters,
  `Validate`, `List`, `Write`).
* `wish/list/list.go` — the `ls` listing middleware.

Modelling conventions:
* The per-session `ssh.Context()` value store is `SessionCtx`, one `Option`
  field per typed key.  A `none` field models a key that was never set; for the
  user key we use `Option (Option User)` because Go distinguishes an unset key
  (type assertion on a nil interface value: runtime panic) from a cached nil
  `*db.User` (the explicit `user == nil` error return in `getUser`).
* Fallible collaborator calls return `Except`; a handler call's outcome is
  `Res α` (`ok` / returned `err` / Go runtime `panic`).
* The external DB pool and object storage are oracles (structures of
  functions).  The project-store operations additionally receive the list of
  project-store calls made so far in the session, so that an oracle can model a
  mutable store (e.g. a `findProjectByName` that succeeds only after an
  `insertProject` appears in the history).
* Every handler call also returns the list of DB-pool calls and storage calls
  it performed, in order, so claims about "how many store calls happen" are
  statements about these traces.
* Bytes are `List Nat`; machine integer sizes are modelled as `Int`/`Nat`
  (no overflow is relevant at the sizes involved).
-/

/-- `db.User`: resolved identity (ID and display name). -/
structure User where
  id : Nat
  name : String
  deriving Repr, DecidableEq

/-- `storage.Bucket`: the adapter only ever reads its name. -/
structure Bucket where
  name : String
  deriving Repr, DecidableEq

/-- `db.Project`: owning user ID, name, display name. -/
structure Project where
  userId : Nat
  name : String
  displayName : String
  deriving Repr, DecidableEq

/-- `utils.VirtualFile` / a listed file: name, directory flag, size, mtime. -/
structure VirtualFile where
  fname : String
  fisDir : Bool
  fsize : Int
  fmtime : Int
  deriving Repr, DecidableEq

/-- `utils.FileEntry`: logical path, transport-declared size, content stream
(`some bytes` = `io.ReadAll` succeeds with those bytes, `none` = the read
fails), mtime. -/
structure FileEntry where
  filepath : String
  size : Int
  reader : Option (List Nat)
  mtime : Int
  deriving Repr, DecidableEq

/-- `uploadassets.FileData`: the write payload handed to the storage-write
routine. -/
structure FileData where
  entry : FileEntry
  text : List Nat
  user : User
  bucket : Bucket
  bucketQuota : Nat
  deriving Repr, DecidableEq

/-- Errors returned by the external DB pool. -/
inductive DbErr where
  | notFound
  | internal
  deriving Repr, DecidableEq

/-- Errors returned by the external object storage (and the storage-write
routine; `quotaExceeded` is a possible write rejection). -/
inductive StoreErr where
  | notFound
  | unavailable
  | quotaExceeded
  deriving Repr, DecidableEq

/-- Errors returned by the handler itself, named after the `fmt.Errorf`
messages in the source.  The spec taxonomy maps onto these as:
`SessionNotValidated` = `userNotSet`/`bucketNotSet`, `CredentialNotFound` =
`keyNotFound` or a propagated `dbErr` from `FindUserForKey`, `InvalidIdentity`
= `noUsername`, `NotEntitled` = `notEntitled`. -/
inductive Err where
  | keyNotFound
  | noUsername
  | notEntitled
  | userNotSet
  | bucketNotSet
  | dbErr (e : DbErr)
  | storeErr (e : StoreErr)
  deriving Repr, DecidableEq

/-- Outcome of a handler call: a returned value, a returned error, or a Go
runtime panic (a failed dynamic type assertion on the session context). -/
inductive Res (α : Type) where
  | ok (a : α)
  | err (e : Err)
  | panic
  deriving Repr, DecidableEq

/-- The per-session `ssh.Context()` value store: one field per typed key
(`ctxUserKey`, `ctxBucketKey`, `ctxBucketQuotaKey`, `ctxProjectKey`).
`user = none` means the key was never set; `user = some none` means a nil
`*db.User` was stored under the key. -/
structure SessionCtx where
  user : Option (Option User)
  bucket : Option Bucket
  bucketQuota : Option Nat
  project : Option Project
  deriving Repr, DecidableEq

/-- A fresh session context: nothing cached. -/
def SessionCtx.empty : SessionCtx := ⟨none, none, none, none⟩

/-- One call to the external DB pool, as recorded in a call trace. -/
inductive DbCall where
  | findUserForKey (username keyText : String)
  | hasFeatureForUser (userId : Nat) (feature : String)
  | findProjectByName (userId : Nat) (name : String)
  | insertProject (userId : Nat) (name displayName : String)
  | updateProject (userId : Nat) (name : String)
  deriving Repr, DecidableEq

/-- One call to the external object storage (or the storage-write routine), as
recorded in a call trace. -/
inductive StorageCall where
  | upsertBucket (name : String)
  | getBucketQuota (bucket : Bucket)
  | getBucketByName (name : String)
  | listFiles (bucket : Bucket) (fpath : String) (recursive : Bool)
  | writeAsset (data : FileData)
  deriving Repr, DecidableEq

/-- The external DB pool (`db.DB` interface), as a response oracle.  The
project-store operations receive the history of DB calls already made in the
session, so a single oracle value can model a store mutated by earlier calls
(the re-fetch after `InsertProject` may answer differently from the first
lookup). -/
structure DBPool where
  findUserForKey : String → String → Except DbErr User
  hasFeatureForUser : Nat → String → Bool
  findProjectByName : List DbCall → Nat → String → Except DbErr Project
  insertProject : List DbCall → Nat → String → String → Except DbErr Nat
  updateProject : List DbCall → Nat → String → Except DbErr Unit

/-- The external object storage (`storage.ObjectStorage` interface). -/
structure ObjectStorage where
  getBucket : String → Except StoreErr Bucket
  upsertBucket : String → Except StoreErr Bucket
  getBucketQuota : Bucket → Except StoreErr Nat
  listFiles : Bucket → String → Bool → Except StoreErr (List VirtualFile)

/-- `shared.ConfigSite`: only the pieces the handler reads.  `assetURL` is the
externally configured URL composer `Cfg.AssetURL(userName, projectName,
relativePath)`. -/
structure ConfigSite where
  assetURL : String → String → String → String
  space : String

/-- The session-fixed inputs: `s.User()`, the presented key (`util.KeyText`,
`none` = the key cannot be obtained), and `s.Command()`. -/
structure SessionInput where
  userName : String
  keyText : Option String
  command : List String

/-- `uploadassets.UploadAssetHandler`.  `writeAsset` — Modelled from the spec:
the backend-specific storage-write routine `h.writeAsset` is not under `src/`;
the spec treats it as an external collaborator boundary taking the assembled
`FileData` and accepting or rejecting the write. -/
structure UploadAssetHandler where
  dbPool : DBPool
  cfg : ConfigSite
  storage : ObjectStorage
  writeAsset : FileData → Except StoreErr Unit

/-- Modelled from the spec: `shared.GetAssetBucketName` is not under `src/`;
the spec says the bucket is "named deterministically from the identity's ID". -/
def getAssetBucketName (userId : Nat) : String :=
  "static-" ++ toString userId

/-- First path segment of a path: drop leading separators, then take up to the
next separator. -/
def firstSegment (path : String) : String :=
  ⟨(path.data.dropWhile (fun c => c == '/')).takeWhile (fun c => c != '/')⟩

/-- Modelled from the spec: `shared.GetProjectName` is not under `src/`; the
spec says the project name is "derived deterministically from the entry's
logical path (the first path segment)". -/
def getProjectName (entry : FileEntry) : String :=
  firstSegment entry.filepath

/-- Go `strings.Replace(s, pat, new, 1)` on `List Char`: replace the first
occurrence of `pat` (if `pat` is empty, Go inserts `new` before the string). -/
def replaceOnceL (pat new : List Char) : List Char → List Char
  | [] => if pat.isEmpty then new else []
  | c :: rest =>
    if pat.isPrefixOf (c :: rest) then new ++ (c :: rest).drop pat.length
    else c :: replaceOnceL pat new rest

/-- Go `strings.Replace(s, pat, new, 1)` on `String`. -/
def goReplaceOnce (s pat new : String) : String :=
  ⟨replaceOnceL pat.data new.data s.data⟩

/-- Go `path/filepath.Base` with separator `/` (volume names are empty):
empty path gives `"."`; otherwise strip trailing separators, keep everything
after the last separator, and a path of only separators gives `"/"`. -/
def filepathBase (path : String) : String :=
  if path = "" then "."
  else
    let stripped := (path.data.reverse.dropWhile (fun c => c == '/')).reverse
    let base := (stripped.reverse.takeWhile (fun c => c != '/')).reverse
    if base = [] then "/" else ⟨base⟩

/-- `uploadassets.getProject`: returns nil (`none`) when the key is unset,
else the cached project. -/
def getProject (ctx : SessionCtx) : Option Project :=
  ctx.project

/-- `uploadassets.getBucket`: the type assertion panics when the key is unset;
a cached bucket with an empty name is the explicit error return. -/
def getBucket (ctx : SessionCtx) : Res Bucket :=
  match ctx.bucket with
  | none => .panic
  | some bucket => if bucket.name = "" then .err .bucketNotSet else .ok bucket

/-- `uploadassets.getBucketQuota`: the type assertion panics when the key is
unset (callers map `none` to a panic outcome), else the cached quota. -/
def getBucketQuota (ctx : SessionCtx) : Option Nat :=
  ctx.bucketQuota

/-- `uploadassets.getUser`: unset key — the type assertion on the nil
interface value panics; cached nil `*db.User` — the explicit error return;
otherwise the cached user. -/
def getUser (ctx : SessionCtx) : Res User :=
  match ctx.user with
  | none => .panic
  | some none => .err .userNotSet
  | some (some user) => .ok user

/-- Result of one handler call: outcome, updated session context, DB-pool
calls made (in order), storage calls made (in order). -/
structure Eff (α : Type) where
  res : Res α
  ctx : SessionCtx
  dbCalls : List DbCall
  storageCalls : List StorageCall
  deriving Repr

/-- `UploadAssetHandler.Validate` (handler.go:137-175): resolve the key to a
user, require a user name and the `"pgs"` feature, upsert the asset bucket,
read its quota, and cache bucket, quota and user (in that order) in the
session context. -/
def UploadAssetHandler.Validate (h : UploadAssetHandler) (sess : SessionInput)
    (ctx : SessionCtx) : Eff Unit :=
  match sess.keyText with
  | none => ⟨.err .keyNotFound, ctx, [], []⟩
  | some key =>
    match h.dbPool.findUserForKey sess.userName key with
    | .error e => ⟨.err (.dbErr e), ctx, [.findUserForKey sess.userName key], []⟩
    | .ok user =>
      if user.name = "" then
        ⟨.err .noUsername, ctx, [.findUserForKey sess.userName key], []⟩
      else if h.dbPool.hasFeatureForUser user.id "pgs" = false then
        ⟨.err .notEntitled, ctx,
          [.findUserForKey sess.userName key, .hasFeatureForUser user.id "pgs"], []⟩
      else
        let assetBucket := getAssetBucketName user.id
        match h.storage.upsertBucket assetBucket with
        | .error e =>
          ⟨.err (.storeErr e), ctx,
            [.findUserForKey sess.userName key, .hasFeatureForUser user.id "pgs"],
            [.upsertBucket assetBucket]⟩
        | .ok bucket =>
          let ctx1 := { ctx with bucket := some bucket }
          match h.storage.getBucketQuota bucket with
          | .error e =>
            ⟨.err (.storeErr e), ctx1,
              [.findUserForKey sess.userName key, .hasFeatureForUser user.id "pgs"],
              [.upsertBucket assetBucket, .getBucketQuota bucket]⟩
          | .ok totalFileSize =>
            let ctx2 := { ctx1 with bucketQuota := some totalFileSize }
            let ctx3 := { ctx2 with user := some (some user) }
            ⟨.ok (), ctx3,
              [.findUserForKey sess.userName key, .hasFeatureForUser user.id "pgs"],
              [.upsertBucket assetBucket, .getBucketQuota bucket]⟩

/-- `UploadAssetHandler.List` (handler.go:103-135): require a cached user,
fetch the asset bucket; if `filepath.Base fpath` is `""` or `"."` return one
synthetic directory entry (named `"/"` only in the unreachable `""` case),
else delegate to the storage backend's non-recursive listing.  (Named
`ListDir` here only because `List` would shadow Lean's list type inside the
`UploadAssetHandler` namespace.) -/
def UploadAssetHandler.ListDir (h : UploadAssetHandler) (ctx : SessionCtx)
    (fpath : String) : Eff (List VirtualFile) :=
  match getUser ctx with
  | .panic => ⟨.panic, ctx, [], []⟩
  | .err e => ⟨.err e, ctx, [], []⟩
  | .ok user =>
    let cleanFilename := filepathBase fpath
    let bucketName := getAssetBucketName user.id
    match h.storage.getBucket bucketName with
    | .error e => ⟨.err (.storeErr e), ctx, [], [.getBucketByName bucketName]⟩
    | .ok bucket =>
      if cleanFilename = "" ∨ cleanFilename = "." then
        let name := if cleanFilename = "" then "/" else cleanFilename
        ⟨.ok [{ fname := name, fisDir := true, fsize := 0, fmtime := 0 }], ctx,
          [], [.getBucketByName bucketName]⟩
      else
        match h.storage.listFiles bucket fpath false with
        | .error e =>
          ⟨.err (.storeErr e), ctx, [],
            [.getBucketByName bucketName, .listFiles bucket fpath false]⟩
        | .ok fileList =>
          ⟨.ok fileList, ctx, [],
            [.getBucketByName bucketName, .listFiles bucket fpath false]⟩

/-- Tail of `Write` after project resolution (handler.go:221-240): read the
cached quota (type assertion; panic when unset), build the `FileData` payload,
call the storage-write routine, and on success compose the URL from the user
name, the derived project name, and the path with the first occurrence of
`"/<project>/"` removed. -/
def writeFinish (h : UploadAssetHandler) (ctx : SessionCtx) (user : User)
    (entry1 : FileEntry) (origText : List Nat) (bucket : Bucket)
    (projectName : String) (dbCalls : List DbCall) : Eff String :=
  match getBucketQuota ctx with
  | none => ⟨.panic, ctx, dbCalls, []⟩
  | some bucketQuota =>
    match h.writeAsset ⟨entry1, origText, user, bucket, bucketQuota⟩ with
    | .error e =>
      ⟨.err (.storeErr e), ctx, dbCalls,
        [.writeAsset ⟨entry1, origText, user, bucket, bucketQuota⟩]⟩
    | .ok _ =>
      ⟨.ok (h.cfg.assetURL user.name projectName
          (goReplaceOnce entry1.filepath ("/" ++ projectName ++ "/") "")),
        ctx, dbCalls,
        [.writeAsset ⟨entry1, origText, user, bucket, bucketQuota⟩]⟩

/-- `UploadAssetHandler.Write` (handler.go:177-241): require a cached user
(panic on an unset key), read the content stream (a failed read silently
leaves the content empty), overwrite the entry size with the byte length
actually read, require a cached bucket, then — only when no project is cached
yet — run the project lookup / update-or-insert-and-re-fetch sequence and
cache the resolved project, and finally persist and build the URL.  `hist` is
the history of DB calls already made in this session (threaded to the
DB-pool oracle). -/
def UploadAssetHandler.Write (h : UploadAssetHandler) (ctx : SessionCtx)
    (hist : List DbCall) (entry : FileEntry) : Eff String :=
  match getUser ctx with
  | .panic => ⟨.panic, ctx, [], []⟩
  | .err e => ⟨.err e, ctx, [], []⟩
  | .ok user =>
    let origText : List Nat := match entry.reader with
      | some b => b
      | none => []
    let fileSize : Nat := origText.length
    let entry1 : FileEntry := { entry with size := (fileSize : Int) }
    match getBucket ctx with
    | .panic => ⟨.panic, ctx, [], []⟩
    | .err e => ⟨.err e, ctx, [], []⟩
    | .ok bucket =>
      let projectName := getProjectName entry1
      match getProject ctx with
      | some _ =>
        writeFinish h ctx user entry1 origText bucket projectName []
      | none =>
        let c1 : DbCall := .findProjectByName user.id projectName
        match h.dbPool.findProjectByName hist user.id projectName with
        | .ok project =>
          let c2 : DbCall := .updateProject user.id projectName
          match h.dbPool.updateProject (hist ++ [c1]) user.id projectName with
          | .error e => ⟨.err (.dbErr e), ctx, [c1, c2], []⟩
          | .ok _ =>
            let ctx1 := { ctx with project := some project }
            writeFinish h ctx1 user entry1 origText bucket projectName [c1, c2]
        | .error _ =>
          let c2 : DbCall := .insertProject user.id projectName projectName
          match h.dbPool.insertProject (hist ++ [c1]) user.id projectName projectName with
          | .error e => ⟨.err (.dbErr e), ctx, [c1, c2], []⟩
          | .ok _ =>
            let c3 : DbCall := .findProjectByName user.id projectName
            match h.dbPool.findProjectByName (hist ++ [c1, c2]) user.id projectName with
            | .error e => ⟨.err (.dbErr e), ctx, [c1, c2, c3], []⟩
            | .ok project =>
              let ctx1 := { ctx with project := some project }
              writeFinish h ctx1 user entry1 origText bucket projectName [c1, c2, c3]

/-- Result of a sequence of `Write` calls in one session. -/
structure ManyEff where
  results : List (Res String)
  ctx : SessionCtx
  dbCalls : List DbCall
  storageCalls : List StorageCall
  deriving Repr

/-- Run `Write` once per entry, threading the session context and the DB-call
history, and concatenating the traces. -/
def UploadAssetHandler.writeMany (h : UploadAssetHandler) :
    SessionCtx → List DbCall → List FileEntry → ManyEff
  | ctx, _, [] => ⟨[], ctx, [], []⟩
  | ctx, hist, e :: es =>
    let w := h.Write ctx hist e
    let m := h.writeMany w.ctx (hist ++ w.dbCalls) es
    ⟨w.res :: m.results, m.ctx, w.dbCalls ++ m.dbCalls,
      w.storageCalls ++ m.storageCalls⟩

/-- list.go:35 — strip every separator character from a listed name. -/
def stripSlashes (s : String) : String :=
  ⟨s.data.filter (fun c => c != '/')⟩

/-- list.go:35-38 — normalized client-facing name of one listed file: the bare
name with all separators stripped, plus a trailing separator for a directory. -/
def normalizeName (f : VirtualFile) : String :=
  stripSlashes f.fname ++ (if f.fisDir then "/" else "")

/-- Go's string comparison on the underlying character lists: lexicographic
by codepoint.  (Go compares UTF-8 byte sequences; byte-wise order of UTF-8
coincides with codepoint-wise order.) -/
def goLeChars : List Char → List Char → Bool
  | [], _ => true
  | _ :: _, [] => false
  | a :: as, b :: bs =>
    if a < b then true
    else if b < a then false
    else goLeChars as bs

/-- Go's `s1 <= s2` on strings. -/
def goLe (a b : String) : Bool :=
  goLeChars a.data b.data

/-- Go `sort.Strings`: ascending lexicographic sort.  (For a total order,
every sorting algorithm produces this same list — equal elements are equal
strings — so insertion sort is a faithful model.) -/
def sortStrings (l : List String) : List String :=
  l.insertionSort (fun a b => goLe a b = true)

/-- list.go:33-43 — the normalized, sorted listing lines. -/
def listingData (files : List VirtualFile) : List String :=
  sortStrings (files.map normalizeName)

/-- list.go:45 — the text written back to the client. -/
def listingOutput (files : List VirtualFile) : String :=
  String.intercalate "\n" (listingData files)

/-- list.go:16 — `len(cmd) > 1 && cmd[0] == "command" && cmd[1] == "ls"`. -/
def isListCommand (cmd : List String) : Bool :=
  match cmd with
  | c0 :: c1 :: _ => c0 == "command" && c1 == "ls"
  | _ => false

/-- Observable outcome of one run of the listing middleware. -/
inductive MiddlewareOutcome where
  | passedThrough
  | errored (e : Err)
  | panicked
  | wrote (output : String)
  deriving Repr, DecidableEq

/-- `list.Middleware` (list.go:12-51): pass non-matching commands to the next
handler; otherwise `Validate`, `List(session, "/")`, normalize, sort, join
with newlines, and write the result to the session. -/
def listMiddleware (h : UploadAssetHandler) (sess : SessionInput)
    (ctx : SessionCtx) : MiddlewareOutcome :=
  if isListCommand sess.command = false then .passedThrough
  else
    let v := h.Validate sess ctx
    match v.res with
    | .panic => .panicked
    | .err e => .errored e
    | .ok _ =>
      let l := h.ListDir v.ctx "/"
      match l.res with
      | .panic => .panicked
      | .err e => .errored e
      | .ok fileList => .wrote (listingOutput fileList)

/-- The DB calls of one full project lookup / update-or-insert-and-re-fetch
sequence (as `Write` performs it when every project-store call succeeds),
given the call history at its start. -/
def projectResolutionCalls (p : DBPool) (hist : List DbCall) (userId : Nat)
    (name : String) : List DbCall :=
  match p.findProjectByName hist userId name with
  | .ok _ => [.findProjectByName userId name, .updateProject userId name]
  | .error _ =>
    [.findProjectByName userId name, .insertProject userId name name,
      .findProjectByName userId name]

/-- Every project-store call of the resolution sequence succeeds (with the
same history threading `Write` uses). -/
def resolutionOk (p : DBPool) (hist : List DbCall) (userId : Nat)
    (name : String) : Bool :=
  match p.findProjectByName hist userId name with
  | .ok _ =>
    match p.updateProject (hist ++ [.findProjectByName userId name]) userId name with
    | .ok _ => true
    | .error _ => false
  | .error _ =>
    match p.insertProject (hist ++ [.findProjectByName userId name]) userId name name with
    | .error _ => false
    | .ok _ =>
      match p.findProjectByName
          (hist ++ [.findProjectByName userId name, .insertProject userId name name])
          userId name with
      | .ok _ => true
      | .error _ => false

/-- Session-state consistency: a session that looks validated (a real user is
cached) also has the bucket and the quota snapshot cached. -/
def ctxConsistent (ctx : SessionCtx) : Prop :=
  (∃ u : User, ctx.user = some (some u)) →
    (ctx.bucket.isSome = true ∧ ctx.bucketQuota.isSome = true)

/-! ## Helper lemmas -/

/-- `writeFinish` never touches the session context and returns exactly the
DB calls it was handed. -/
theorem writeFinish_state (h : UploadAssetHandler) (ctx : SessionCtx)
    (user : User) (entry1 : FileEntry) (origText : List Nat) (bucket : Bucket)
    (projectName : String) (dbCalls : List DbCall) :
    (writeFinish h ctx user entry1 origText bucket projectName dbCalls).ctx = ctx
    ∧ (writeFinish h ctx user entry1 origText bucket projectName dbCalls).dbCalls
        = dbCalls := by
  unfold writeFinish
  split
  · exact ⟨rfl, rfl⟩
  · split <;> exact ⟨rfl, rfl⟩

/-- `writeFinish` never returns a DB-pool error. -/
theorem writeFinish_res_no_dbErr (h : UploadAssetHandler) (ctx : SessionCtx)
    (user : User) (entry1 : FileEntry) (origText : List Nat) (bucket : Bucket)
    (projectName : String) (dbCalls : List DbCall) (d : DbErr) :
    (writeFinish h ctx user entry1 origText bucket projectName dbCalls).res
      ≠ Res.err (Err.dbErr d) := by
  unfold writeFinish
  split
  · simp
  · split <;> simp

/-- A successful `writeFinish` returns exactly the composed asset URL. -/
theorem writeFinish_ok_url (h : UploadAssetHandler) (ctx : SessionCtx)
    (user : User) (entry1 : FileEntry) (origText : List Nat) (bucket : Bucket)
    (projectName : String) (dbCalls : List DbCall) (url : String)
    (hres : (writeFinish h ctx user entry1 origText bucket projectName dbCalls).res
      = Res.ok url) :
    url = h.cfg.assetURL user.name projectName
      (goReplaceOnce entry1.filepath ("/" ++ projectName ++ "/") "") := by
  unfold writeFinish at hres
  split at hres
  · simp at hres
  · split at hres
    · simp at hres
    · simp only [Res.ok.injEq] at hres
      exact hres.symm

/-- Every `writeAsset` storage call made by `writeFinish` carries exactly the
entry, bytes, user and bucket it was invoked with. -/
theorem writeFinish_storage (h : UploadAssetHandler) (ctx : SessionCtx)
    (user : User) (entry1 : FileEntry) (origText : List Nat) (bucket : Bucket)
    (projectName : String) (dbCalls : List DbCall) (d : FileData)
    (hmem : StorageCall.writeAsset d
      ∈ (writeFinish h ctx user entry1 origText bucket projectName dbCalls).storageCalls) :
    d.entry = entry1 ∧ d.text = origText ∧ d.user = user ∧ d.bucket = bucket := by
  unfold writeFinish at hmem
  split at hmem
  · simp at hmem
  · split at hmem <;>
    · simp only [List.mem_singleton, StorageCall.writeAsset.injEq] at hmem
      subst hmem
      exact ⟨rfl, rfl, rfl, rfl⟩

/-- `Write` on a session with a cached project leaves the session context
unchanged and performs no DB-pool call. -/
theorem write_cached_project (h : UploadAssetHandler) (ctx : SessionCtx)
    (hist : List DbCall) (e : FileEntry) (p : Project)
    (hp : ctx.project = some p) :
    (h.Write ctx hist e).ctx = ctx ∧ (h.Write ctx hist e).dbCalls = [] := by
  unfold UploadAssetHandler.Write
  cases hu : getUser ctx with
  | panic => exact ⟨rfl, rfl⟩
  | err e => exact ⟨rfl, rfl⟩
  | ok user =>
    cases hb : getBucket ctx with
    | panic => exact ⟨rfl, rfl⟩
    | err e => exact ⟨rfl, rfl⟩
    | ok bucket =>
      simp only [getProject, hp]
      exact writeFinish_state h ctx user _ _ bucket _ []

/-- `writeMany` on a session with a cached project leaves the context
unchanged and performs no DB-pool call at all. -/
theorem writeMany_cached_project (h : UploadAssetHandler) (es : List FileEntry) :
    ∀ (ctx : SessionCtx) (hist : List DbCall) (p : Project),
      ctx.project = some p →
      (h.writeMany ctx hist es).ctx = ctx ∧ (h.writeMany ctx hist es).dbCalls = [] := by
  induction es with
  | nil => intro ctx hist p _; exact ⟨rfl, rfl⟩
  | cons e es ih =>
    intro ctx hist p hp
    have hw := write_cached_project h ctx hist e p hp
    have hrest := ih (h.Write ctx hist e).ctx (hist ++ (h.Write ctx hist e).dbCalls) p
      (by rw [hw.1, hp])
    unfold UploadAssetHandler.writeMany
    simp only [ManyEff.mk.injEq]
    constructor
    · rw [hrest.1, hw.1]
    · rw [hrest.2, hw.2]
      rfl

/-- `Write` never changes the cached user, bucket or quota snapshot. -/
theorem write_preserves_validation (h : UploadAssetHandler) (ctx : SessionCtx)
    (hist : List DbCall) (e : FileEntry) :
    (h.Write ctx hist e).ctx.user = ctx.user
    ∧ (h.Write ctx hist e).ctx.bucket = ctx.bucket
    ∧ (h.Write ctx hist e).ctx.bucketQuota = ctx.bucketQuota := by
  unfold UploadAssetHandler.Write
  cases hu : getUser ctx with
  | panic => exact ⟨rfl, rfl, rfl⟩
  | err e => exact ⟨rfl, rfl, rfl⟩
  | ok user =>
    cases hb : getBucket ctx with
    | panic => exact ⟨rfl, rfl, rfl⟩
    | err e => exact ⟨rfl, rfl, rfl⟩
    | ok bucket =>
      cases hp : getProject ctx with
      | some p =>
        simp only
        rw [(writeFinish_state h ctx user _ _ bucket _ []).1]
        exact ⟨rfl, rfl, rfl⟩
      | none =>
        simp only
        split
        · split
          · exact ⟨rfl, rfl, rfl⟩
          · rw [(writeFinish_state h _ user _ _ bucket _ _).1]
            exact ⟨rfl, rfl, rfl⟩
        · split
          · exact ⟨rfl, rfl, rfl⟩
          · split
            · exact ⟨rfl, rfl, rfl⟩
            · rw [(writeFinish_state h _ user _ _ bucket _ _).1]
              exact ⟨rfl, rfl, rfl⟩

/-! ## Concrete instances used by witnesses and counterexamples -/

/-- A concrete identity. -/
def aliceUser : User := ⟨1, "alice"⟩

/-- A concrete DB-pool oracle: key `"badkey"` is unknown; user `"noname"` has
an empty name; `"bob"` lacks the `"pgs"` feature; a project is found iff an
`insertProject` for it already appears in the session history (so the first
lookup misses and the re-fetch after the insert hits). -/
def demoDb : DBPool where
  findUserForKey := fun username key =>
    if key = "badkey" then .error .notFound
    else if username = "noname" then .ok ⟨2, ""⟩
    else if username = "bob" then .ok ⟨3, "bob"⟩
    else .ok aliceUser
  hasFeatureForUser := fun userId feature => userId == 1 && feature == "pgs"
  findProjectByName := fun hist userId name =>
    if (DbCall.insertProject userId name name) ∈ hist then .ok ⟨userId, name, name⟩
    else .error .notFound
  insertProject := fun _ _ _ _ => .ok 7
  updateProject := fun _ _ _ => .ok ()

/-- A DB-pool oracle whose project lookup always succeeds (update path). -/
def demoDbUpdatePath : DBPool :=
  { demoDb with findProjectByName := fun _ userId name => .ok ⟨userId, name, name⟩ }

/-- A DB-pool oracle whose `updateProject` always fails. -/
def demoDbFailUpdate : DBPool :=
  { demoDbUpdatePath with updateProject := fun _ _ _ => .error .internal }

/-- A concrete storage oracle; the bucket listing contains a name with an
embedded separator and a directory. -/
def demoStorage : ObjectStorage where
  getBucket := fun name => .ok ⟨name⟩
  upsertBucket := fun name => .ok ⟨name⟩
  getBucketQuota := fun _ => .ok 42
  listFiles := fun _ _ _ => .ok [⟨"b/ar", false, 3, 0⟩, ⟨"a", true, 0, 0⟩]

/-- A concrete site config with a visibly compositional URL scheme. -/
def demoCfg : ConfigSite := ⟨fun u p r => u ++ "|" ++ p ++ "|" ++ r, "pgs"⟩

/-- The concrete handler used by witnesses (insert-path project oracle,
storage writes accepted). -/
def demoHandler : UploadAssetHandler := ⟨demoDb, demoCfg, demoStorage, fun _ => .ok ()⟩

/-- The concrete handler with the update-path project oracle. -/
def demoHandlerUpdate : UploadAssetHandler :=
  ⟨demoDbUpdatePath, demoCfg, demoStorage, fun _ => .ok ()⟩

/-- The concrete handler whose `updateProject` fails. -/
def demoHandlerFailUpdate : UploadAssetHandler :=
  ⟨demoDbFailUpdate, demoCfg, demoStorage, fun _ => .ok ()⟩

/-- A validated session context (as `Validate` leaves it for `aliceUser`). -/
def demoCtx : SessionCtx := ⟨some (some aliceUser), some ⟨"static-1"⟩, some 42, none⟩

/-- The validated context with a project already cached. -/
def demoCtxProj : SessionCtx :=
  { demoCtx with project := some ⟨1, "blog", "blog"⟩ }

/-- A concrete incoming entry: transport declares size 10, actual content is
3 bytes. -/
def demoEntry : FileEntry := ⟨"/blog/post1.md", 10, some [1, 2, 3], 0⟩

/-- A second entry, under a different first path segment. -/
def demoEntry2 : FileEntry := ⟨"/docs/readme.md", 20, some [4, 5, 6, 7], 0⟩

/-! ## Bridge between the executable Go comparison and the `String` order -/

/-- `goLeChars as bs` decides `¬ List.lt bs as` (the core lexicographic list
order). -/
theorem goLeChars_iff (as : List Char) : ∀ bs : List Char,
    goLeChars as bs = true ↔ ¬ List.lt bs as := by
  induction as with
  | nil =>
    intro bs
    constructor
    · intro _ hlt
      cases hlt
    · intro _
      rfl
  | cons a as ih =>
    intro bs
    cases bs with
    | nil =>
      constructor
      · intro hfalse
        simp [goLeChars] at hfalse
      · intro hnot
        exact absurd (List.lt.nil a as) hnot
    | cons b bs =>
      show (if a < b then true else if b < a then false else goLeChars as bs) = true ↔ _
      by_cases hab : a < b
      · rw [if_pos hab]
        constructor
        · intro _ hlt
          cases hlt with
          | head _ _ hba => exact absurd hab (asymm hba)
          | tail h1 h2 h3 => exact h2 hab
        · intro _
          rfl
      · by_cases hba : b < a
        · rw [if_neg hab, if_pos hba]
          constructor
          · intro hfalse
            simp at hfalse
          · intro hnot
            exact absurd (List.lt.head bs as hba) hnot
        · rw [if_neg hab, if_neg hba, ih bs]
          constructor
          · intro hn hlt
            cases hlt with
            | head _ _ hcon => exact hba hcon
            | tail h1 h2 h3 => exact hn h3
          · intro hn hlt
            exact hn (List.lt.tail hba hab hlt)

/-- `goLe` agrees with the linear order on `String`. -/
theorem goLe_iff_le (a b : String) : goLe a b = true ↔ a ≤ b := by
  show goLeChars a.data b.data = true ↔ a ≤ b
  rw [goLeChars_iff]
  rw [String.le_iff_toList_le]
  have h1 : (b.toList < a.toList) ↔ List.Lex (· < ·) b.data a.data := Iff.rfl
  rw [← not_lt, h1, ← List.lt_iff_lex_lt]

instance : IsTotal String (fun a b => goLe a b = true) := by
  constructor
  intro a b
  rw [goLe_iff_le, goLe_iff_le]
  exact le_total a b

instance : IsTrans String (fun a b => goLe a b = true) := by
  constructor
  intro a b c hab hbc
  rw [goLe_iff_le] at hab hbc ⊢
  exact le_trans hab hbc

/-! ## C3 — listing output: normalized names, sorted, joined -/

/-- C3: the listing handler's output is the newline-join of the listed
entries' normalized names — each name is the entry's bare name with every
path-separator character stripped, plus exactly one trailing separator
exactly when the entry is a directory — sorted lexicographically ascending
(Go compares UTF-8 byte sequences; byte order of UTF-8 coincides with the
codepoint-order `≤` on `String` used here, see `goLe_iff_le`). -/
theorem listing_output_normalized_sorted (files : List VirtualFile) :
    listingOutput files = String.intercalate "\n" (listingData files)
    ∧ List.Sorted (fun a b : String => a ≤ b) (listingData files)
    ∧ (listingData files).Perm (files.map normalizeName)
    ∧ ∀ f : VirtualFile,
        (normalizeName f).data
            = f.fname.data.filter (fun c => c != '/')
              ++ (if f.fisDir then ['/'] else [])
        ∧ '/' ∉ f.fname.data.filter (fun c => c != '/') := by
  refine ⟨rfl, ?_, ?_, ?_⟩
  · have hs := List.sorted_insertionSort (fun a b : String => goLe a b = true)
      (files.map normalizeName)
    exact hs.imp (fun hr => (goLe_iff_le _ _).mp hr)
  · exact List.perm_insertionSort (fun a b : String => goLe a b = true) _
  · intro f
    constructor
    · cases hdir : f.fisDir <;>
        simp [normalizeName, stripSlashes, hdir, String.data_append]
    · intro hmem
      have := (List.mem_filter.mp hmem).2
      simp at this

/-! ## C9 — middleware command gate -/

/-- C9 counterexample: the three-token command `command ls -la` is not the
exact two-token listing command, yet the middleware does not pass it to the
next handler — it runs the full listing flow and writes the listing. -/
theorem listMiddleware_three_token_triggers :
    listMiddleware demoHandler ⟨"alice", some "goodkey", ["command", "ls", "-la"]⟩
        SessionCtx.empty = .wrote "a/\nbar"
    ∧ listMiddleware demoHandler ⟨"alice", some "goodkey", ["command", "ls", "-la"]⟩
        SessionCtx.empty ≠ .passedThrough
    ∧ ["command", "ls", "-la"] ≠ ["command", "ls"] := by
  refine ⟨?_, by decide, by decide⟩
  rfl

/-- C9 (amended): the middleware passes control to the next handler exactly
when the command does not have `command` and `ls` as its first two tokens;
any command of the form `command ls <anything...>` — not only the exact
two-token form — triggers the listing flow. -/
theorem listMiddleware_gate (h : UploadAssetHandler) (sess : SessionInput)
    (ctx : SessionCtx) :
    (listMiddleware h sess ctx = .passedThrough ↔ isListCommand sess.command = false)
    ∧ (isListCommand sess.command = true
        ↔ ∃ rest : List String, sess.command = "command" :: "ls" :: rest) := by
  constructor
  · unfold listMiddleware
    split
    · next hgate => simp [hgate]
    · next hgate =>
      simp only [Bool.not_eq_false] at hgate
      simp only [hgate, Bool.true_eq_false, iff_false]
      cases hv : (h.Validate sess ctx).res with
      | panic => simp [hv]
      | err e => simp [hv]
      | ok a =>
        cases hl : (h.ListDir (h.Validate sess ctx).ctx "/").res with
        | panic => simp [hv, hl]
        | err e => simp [hv, hl]
        | ok fileList => simp [hv, hl]
  · unfold isListCommand
    match hc : sess.command with
    | [] => simp
    | [c0] => simp
    | c0 :: c1 :: rest =>
      simp only [Bool.and_eq_true, beq_iff_eq]
      constructor
      · rintro ⟨rfl, rfl⟩
        exact ⟨rest, rfl⟩
      · rintro ⟨r, heq⟩
        cases heq
        exact ⟨rfl, rfl⟩

/-! ## C4 — List at the bucket root -/

/-- C4 counterexample: on a validated session, `List` with the root path `"/"`
(the path the listing middleware passes) *does* invoke the storage backend's
file listing and returns the backend's entries, not a single synthetic `"/"`
directory; and `List` with the empty path returns a synthetic entry named
`"."`, not `"/"` (Go `filepath.Base("") = "."`, `filepath.Base("/") = "/"`). -/
theorem listDir_root_hits_backend :
    (demoHandler.ListDir demoCtx "/").storageCalls
        = [.getBucketByName "static-1", .listFiles ⟨"static-1"⟩ "/" false]
    ∧ (demoHandler.ListDir demoCtx "/").res
        = .ok [⟨"b/ar", false, 3, 0⟩, ⟨"a", true, 0, 0⟩]
    ∧ (demoHandler.ListDir demoCtx "").res
        = .ok [{ fname := ".", fisDir := true, fsize := 0, fmtime := 0 }]
    ∧ ("." : String) ≠ "/" := by
  exact ⟨rfl, rfl, rfl, by decide⟩

/-- C4 (amended): on a validated session, `List` returns a single synthetic
directory entry — named `"."` — and skips the backend listing exactly for
paths whose `filepath.Base` is `"."` (the empty path among them); for every
other path, including the root path `"/"` used by the listing middleware, it
delegates to the storage backend's non-recursive file listing. -/
theorem listDir_base_dot_synthetic (h : UploadAssetHandler) (ctx : SessionCtx)
    (u : User) (bucket : Bucket) (fpath : String)
    (hu : ctx.user = some (some u))
    (hgb : h.storage.getBucket (getAssetBucketName u.id) = .ok bucket) :
    (filepathBase fpath = "." →
      h.ListDir ctx fpath
        = ⟨.ok [{ fname := ".", fisDir := true, fsize := 0, fmtime := 0 }], ctx, [],
            [.getBucketByName (getAssetBucketName u.id)]⟩)
    ∧ (filepathBase fpath ≠ "" → filepathBase fpath ≠ "." →
      (h.ListDir ctx fpath).storageCalls
        = [.getBucketByName (getAssetBucketName u.id), .listFiles bucket fpath false]) := by
  have hgu : getUser ctx = .ok u := by simp [getUser, hu]
  constructor
  · intro hdot
    simp [UploadAssetHandler.ListDir, hgu, hgb, hdot]
  · intro hne hnd
    simp only [UploadAssetHandler.ListDir, hgu, hgb]
    rw [if_neg (by exact fun hor => hor.elim hne hnd)]
    cases hlf : h.storage.listFiles bucket fpath false with
    | error e => simp [hlf]
    | ok fileList => simp [hlf]

/-- C4 witness: the amended theorem applied to the concrete handler, at the
empty path and at the root path `"/"`. -/
theorem listDir_base_dot_witness :
    demoHandler.ListDir demoCtx ""
        = ⟨.ok [{ fname := ".", fisDir := true, fsize := 0, fmtime := 0 }], demoCtx, [],
            [.getBucketByName (getAssetBucketName aliceUser.id)]⟩
    ∧ (demoHandler.ListDir demoCtx "/").storageCalls
        = [.getBucketByName (getAssetBucketName aliceUser.id),
            .listFiles ⟨"static-1"⟩ "/" false] := by
  constructor
  · exact (listDir_base_dot_synthetic demoHandler demoCtx aliceUser ⟨"static-1"⟩ ""
      rfl rfl).1 (by decide)
  · exact (listDir_base_dot_synthetic demoHandler demoCtx aliceUser ⟨"static-1"⟩ "/"
      rfl rfl).2 (by decide) (by decide)

/-! ## C2 — Write on an unvalidated session -/

/-- C2 counterexample: on a fresh (never-validated) session, `Write` does not
return the session-not-validated error — the non-comma-ok type assertion in
`getUser` on the unset context key panics — although it indeed performs no
DB-pool or storage call. -/
theorem write_unvalidated_panic_cex :
    (demoHandler.Write SessionCtx.empty [] demoEntry).res = Res.panic
    ∧ (demoHandler.Write SessionCtx.empty [] demoEntry).res ≠ Res.err Err.userNotSet
    ∧ (demoHandler.Write SessionCtx.empty [] demoEntry).dbCalls = []
    ∧ (demoHandler.Write SessionCtx.empty [] demoEntry).storageCalls = [] := by
  exact ⟨rfl, by decide, rfl, rfl⟩

/-- C2 (amended): on a session with no cached identity, `Write` fails before
any storage-backend or project-store call — but by a Go runtime panic from
the failed dynamic cast in `getUser`, not by returning the
session-not-validated error (that error return is reachable only when a nil
user pointer was explicitly cached). -/
theorem write_unvalidated_no_calls (h : UploadAssetHandler) (ctx : SessionCtx)
    (hist : List DbCall) (e : FileEntry) (hu : ctx.user = none) :
    (h.Write ctx hist e).res = Res.panic
    ∧ (h.Write ctx hist e).ctx = ctx
    ∧ (h.Write ctx hist e).dbCalls = []
    ∧ (h.Write ctx hist e).storageCalls = [] := by
  have hgu : getUser ctx = .panic := by simp [getUser, hu]
  simp [UploadAssetHandler.Write, hgu]

/-- C2 witness: the amended theorem at a concrete fresh session. -/
theorem write_unvalidated_witness :
    (demoHandlerUpdate.Write SessionCtx.empty [] demoEntry2).res = Res.panic
    ∧ (demoHandlerUpdate.Write SessionCtx.empty [] demoEntry2).ctx = SessionCtx.empty
    ∧ (demoHandlerUpdate.Write SessionCtx.empty [] demoEntry2).dbCalls = []
    ∧ (demoHandlerUpdate.Write SessionCtx.empty [] demoEntry2).storageCalls = [] :=
  write_unvalidated_no_calls demoHandlerUpdate SessionCtx.empty [] demoEntry2 rfl

/-! ## C5 — Validate short-circuits before any storage mutation -/

/-- C5: an identity lacking the `"pgs"` capability makes `Validate` fail with
the not-entitled error with no storage call at all (in particular no bucket
upsert) and no change to the session context; the credential-not-found
(missing key, or DB error from the user lookup) and invalid-identity (empty
user name) failures likewise short-circuit before any storage call. -/
theorem validate_short_circuits (h : UploadAssetHandler) (sess : SessionInput)
    (ctx : SessionCtx) :
    (∀ (key : String) (u : User), sess.keyText = some key →
      h.dbPool.findUserForKey sess.userName key = .ok u →
      u.name ≠ "" →
      h.dbPool.hasFeatureForUser u.id "pgs" = false →
      (h.Validate sess ctx).res = .err .notEntitled
      ∧ (h.Validate sess ctx).storageCalls = []
      ∧ (h.Validate sess ctx).ctx = ctx)
    ∧ (sess.keyText = none →
      (h.Validate sess ctx).res = .err .keyNotFound
      ∧ (h.Validate sess ctx).storageCalls = []
      ∧ (h.Validate sess ctx).ctx = ctx)
    ∧ (∀ (key : String) (d : DbErr), sess.keyText = some key →
      h.dbPool.findUserForKey sess.userName key = .error d →
      (h.Validate sess ctx).res = .err (.dbErr d)
      ∧ (h.Validate sess ctx).storageCalls = []
      ∧ (h.Validate sess ctx).ctx = ctx)
    ∧ (∀ (key : String) (u : User), sess.keyText = some key →
      h.dbPool.findUserForKey sess.userName key = .ok u →
      u.name = "" →
      (h.Validate sess ctx).res = .err .noUsername
      ∧ (h.Validate sess ctx).storageCalls = []
      ∧ (h.Validate sess ctx).ctx = ctx) := by
  refine ⟨?_, ?_, ?_, ?_⟩
  · intro key u hk hfind hn hf
    simp [UploadAssetHandler.Validate, hk, hfind, hn, hf]
  · intro hk
    simp [UploadAssetHandler.Validate, hk]
  · intro key d hk hfind
    simp [UploadAssetHandler.Validate, hk, hfind]
  · intro key u hk hfind hn
    simp [UploadAssetHandler.Validate, hk, hfind, hn]

/-- C5 witness: the four short-circuits at concrete sessions against the
concrete DB oracle (`bob` unentitled, missing key, unknown key, empty name). -/
theorem validate_short_circuits_witness :
    ((demoHandler.Validate ⟨"bob", some "k", []⟩ SessionCtx.empty).res
        = .err .notEntitled
      ∧ (demoHandler.Validate ⟨"bob", some "k", []⟩ SessionCtx.empty).storageCalls = []
      ∧ (demoHandler.Validate ⟨"bob", some "k", []⟩ SessionCtx.empty).ctx
          = SessionCtx.empty)
    ∧ ((demoHandler.Validate ⟨"alice", none, []⟩ SessionCtx.empty).res
        = .err .keyNotFound
      ∧ (demoHandler.Validate ⟨"alice", none, []⟩ SessionCtx.empty).storageCalls = []
      ∧ (demoHandler.Validate ⟨"alice", none, []⟩ SessionCtx.empty).ctx
          = SessionCtx.empty)
    ∧ ((demoHandler.Validate ⟨"alice", some "badkey", []⟩ SessionCtx.empty).res
        = .err (.dbErr .notFound)
      ∧ (demoHandler.Validate ⟨"alice", some "badkey", []⟩ SessionCtx.empty).storageCalls = []
      ∧ (demoHandler.Validate ⟨"alice", some "badkey", []⟩ SessionCtx.empty).ctx
          = SessionCtx.empty)
    ∧ ((demoHandler.Validate ⟨"noname", some "k", []⟩ SessionCtx.empty).res
        = .err .noUsername
      ∧ (demoHandler.Validate ⟨"noname", some "k", []⟩ SessionCtx.empty).storageCalls = []
      ∧ (demoHandler.Validate ⟨"noname", some "k", []⟩ SessionCtx.empty).ctx
          = SessionCtx.empty) :=
  ⟨(validate_short_circuits demoHandler ⟨"bob", some "k", []⟩ SessionCtx.empty).1
      "k" ⟨3, "bob"⟩ rfl rfl (by decide) rfl,
    (validate_short_circuits demoHandler ⟨"alice", none, []⟩ SessionCtx.empty).2.1 rfl,
    (validate_short_circuits demoHandler ⟨"alice", some "badkey", []⟩ SessionCtx.empty).2.2.1
      "badkey" .notFound rfl rfl,
    (validate_short_circuits demoHandler ⟨"noname", some "k", []⟩ SessionCtx.empty).2.2.2
      "k" ⟨2, ""⟩ rfl rfl rfl⟩

/-! ## C6 — error paths leave cached session state consistent -/

/-- `Write` either leaves the session context untouched, or caches a resolved
project — and in the latter case it can no longer fail with a DB-pool error
(every project-store failure returns before the project is cached). -/
theorem write_cases (h : UploadAssetHandler) (ctx : SessionCtx)
    (hist : List DbCall) (e : FileEntry) :
    (h.Write ctx hist e).ctx = ctx
    ∨ (∃ p : Project, (h.Write ctx hist e).ctx = { ctx with project := some p }
        ∧ ∀ d : DbErr, (h.Write ctx hist e).res ≠ Res.err (Err.dbErr d)) := by
  unfold UploadAssetHandler.Write
  cases hgu : getUser ctx with
  | panic => exact Or.inl rfl
  | err e2 => exact Or.inl rfl
  | ok user =>
    cases hgb : getBucket ctx with
    | panic => exact Or.inl rfl
    | err e2 => exact Or.inl rfl
    | ok bucket =>
      cases hgp : getProject ctx with
      | some p =>
        simp only
        exact Or.inl (writeFinish_state h ctx user _ _ bucket _ []).1
      | none =>
        simp only
        split
        · next project hfind =>
          split
          · next e2 hupd => exact Or.inl rfl
          · next u2 hupd =>
            refine Or.inr ⟨project, ?_, ?_⟩
            · exact (writeFinish_state h _ user _ _ bucket _ _).1
            · intro d
              exact writeFinish_res_no_dbErr h _ user _ _ bucket _ _ d
        · next e2 hfind =>
          split
          · next e3 hins => exact Or.inl rfl
          · next n hins =>
            split
            · next e3 hfind2 => exact Or.inl rfl
            · next project hfind2 =>
              refine Or.inr ⟨project, ?_, ?_⟩
              · exact (writeFinish_state h _ user _ _ bucket _ _).1
              · intro d
                exact writeFinish_res_no_dbErr h _ user _ _ bucket _ _ d

/-- C6: every error path leaves the cached session state consistent — a
`Write` that fails with a project-store error has cached no project; a failed
`Validate` never caches the identity (only a fully provisioned session ever
looks validated), and both `Validate` and `Write` preserve the invariant that
a session with a cached identity also has the bucket and quota snapshot
cached. -/
theorem error_paths_leave_ctx_consistent (h : UploadAssetHandler)
    (sess : SessionInput) (ctx : SessionCtx) (hist : List DbCall) (e : FileEntry) :
    (ctx.project = none → ∀ d : DbErr,
      (h.Write ctx hist e).res = Res.err (Err.dbErr d) →
      (h.Write ctx hist e).ctx.project = none)
    ∧ ((h.Validate sess ctx).res ≠ Res.ok () → (h.Validate sess ctx).ctx.user = ctx.user)
    ∧ (ctxConsistent ctx → ctxConsistent (h.Validate sess ctx).ctx)
    ∧ (ctxConsistent ctx → ctxConsistent (h.Write ctx hist e).ctx) := by
  refine ⟨?_, ?_, ?_, ?_⟩
  · intro hp d hres
    rcases write_cases h ctx hist e with hc | ⟨p, hc, hnd⟩
    · rw [hc]
      exact hp
    · exact absurd hres (hnd d)
  · cases hk : sess.keyText with
    | none => simp [UploadAssetHandler.Validate, hk]
    | some key =>
      cases hf : h.dbPool.findUserForKey sess.userName key with
      | error d => simp [UploadAssetHandler.Validate, hk, hf]
      | ok user =>
        by_cases hn : user.name = ""
        · simp [UploadAssetHandler.Validate, hk, hf, hn]
        · by_cases hfeat : h.dbPool.hasFeatureForUser user.id "pgs" = false
          · simp [UploadAssetHandler.Validate, hk, hf, hn, hfeat]
          · cases hub : h.storage.upsertBucket (getAssetBucketName user.id) with
            | error e2 => simp [UploadAssetHandler.Validate, hk, hf, hn, hfeat, hub]
            | ok bucket =>
              cases hq : h.storage.getBucketQuota bucket with
              | error e2 => simp [UploadAssetHandler.Validate, hk, hf, hn, hfeat, hub, hq]
              | ok total => simp [UploadAssetHandler.Validate, hk, hf, hn, hfeat, hub, hq]
  · intro hcons
    cases hk : sess.keyText with
    | none => simpa [UploadAssetHandler.Validate, hk] using hcons
    | some key =>
      cases hf : h.dbPool.findUserForKey sess.userName key with
      | error d => simpa [UploadAssetHandler.Validate, hk, hf] using hcons
      | ok user =>
        by_cases hn : user.name = ""
        · simpa [UploadAssetHandler.Validate, hk, hf, hn] using hcons
        · by_cases hfeat : h.dbPool.hasFeatureForUser user.id "pgs" = false
          · simpa [UploadAssetHandler.Validate, hk, hf, hn, hfeat] using hcons
          · cases hub : h.storage.upsertBucket (getAssetBucketName user.id) with
            | error e2 =>
              simpa [UploadAssetHandler.Validate, hk, hf, hn, hfeat, hub] using hcons
            | ok bucket =>
              cases hq : h.storage.getBucketQuota bucket with
              | error e2 =>
                simp only [UploadAssetHandler.Validate, hk, hf, hn, hfeat, hub, hq]
                exact fun hex => ⟨rfl, (hcons hex).2⟩
              | ok total =>
                simp only [UploadAssetHandler.Validate, hk, hf, hn, hfeat, hub, hq]
                exact fun _ => ⟨rfl, rfl⟩
  · intro hcons
    have hpres := write_preserves_validation h ctx hist e
    intro hex
    rw [hpres.1] at hex
    rw [hpres.2.1, hpres.2.2]
    exact hcons hex

/-- C6 witness: a failed `updateProject` during `Write` leaves no cached
project; a failed `Validate` (unknown key) leaves the identity uncached and
the context consistent; a full `Write` keeps the context consistent. -/
theorem error_paths_witness :
    (demoHandlerFailUpdate.Write demoCtx [] demoEntry).ctx.project = none
    ∧ (demoHandler.Validate ⟨"alice", some "badkey", []⟩ demoCtx).ctx.user = demoCtx.user
    ∧ ctxConsistent (demoHandler.Validate ⟨"alice", some "badkey", []⟩ demoCtx).ctx
    ∧ ctxConsistent (demoHandler.Write demoCtx [] demoEntry).ctx :=
  ⟨(error_paths_leave_ctx_consistent demoHandlerFailUpdate ⟨"x", none, []⟩ demoCtx []
      demoEntry).1 rfl DbErr.internal rfl,
    (error_paths_leave_ctx_consistent demoHandler ⟨"alice", some "badkey", []⟩ demoCtx []
      demoEntry).2.1 (by decide),
    (error_paths_leave_ctx_consistent demoHandler ⟨"alice", some "badkey", []⟩ demoCtx []
      demoEntry).2.2.1 (fun _ => ⟨rfl, rfl⟩),
    (error_paths_leave_ctx_consistent demoHandler ⟨"x", none, []⟩ demoCtx []
      demoEntry).2.2.2 (fun _ => ⟨rfl, rfl⟩)⟩

/-! ## C7 — Write trusts the bytes actually read, not the declared size -/

/-- The concrete payload the witness write hands to the storage-write
routine: 3 bytes of content, entry size overwritten from the declared 10
to 3. -/
def demoData : FileData :=
  ⟨⟨"/blog/post1.md", 3, some [1, 2, 3], 0⟩, [1, 2, 3], aliceUser, ⟨"static-1"⟩, 42⟩

/-- C7: whenever `Write` hands a payload to the storage-write routine, that
payload's bytes are exactly the bytes read from the entry's content stream,
and the entry inside it is the incoming entry with its size overwritten by
the byte count actually read — whatever size the transport declared. -/
theorem write_uses_actual_bytes (h : UploadAssetHandler) (ctx : SessionCtx)
    (hist : List DbCall) (e : FileEntry) (bytes : List Nat) (d : FileData)
    (hr : e.reader = some bytes)
    (hmem : StorageCall.writeAsset d ∈ (h.Write ctx hist e).storageCalls) :
    d.text = bytes
    ∧ d.entry = { e with size := (bytes.length : Int) }
    ∧ d.entry.size = (bytes.length : Int) := by
  simp only [UploadAssetHandler.Write, hr] at hmem
  cases hgu : getUser ctx with
  | panic => simp [hgu] at hmem
  | err e2 => simp [hgu] at hmem
  | ok user =>
    simp only [hgu] at hmem
    cases hgb : getBucket ctx with
    | panic => simp [hgb] at hmem
    | err e2 => simp [hgb] at hmem
    | ok bucket =>
      simp only [hgb] at hmem
      cases hgp : getProject ctx with
      | some p =>
        simp only [hgp] at hmem
        obtain ⟨he, ht, _, _⟩ := writeFinish_storage h ctx user _ _ bucket _ [] d hmem
        exact ⟨ht, by rw [hr]; exact he, by rw [he]⟩
      | none =>
        simp only [hgp] at hmem
        split at hmem
        · split at hmem
          · simp at hmem
          · obtain ⟨he, ht, _, _⟩ := writeFinish_storage h _ user _ _ bucket _ _ d hmem
            exact ⟨ht, by rw [hr]; exact he, by rw [he]⟩
        · split at hmem
          · simp at hmem
          · split at hmem
            · simp at hmem
            · obtain ⟨he, ht, _, _⟩ := writeFinish_storage h _ user _ _ bucket _ _ d hmem
              exact ⟨ht, by rw [hr]; exact he, by rw [he]⟩

/-- C7 witness: the theorem at a concrete write whose transport-declared size
(10) disagrees with the 3 bytes actually transferred. -/
theorem write_uses_actual_bytes_witness :
    demoData.text = [1, 2, 3]
    ∧ demoData.entry = { demoEntry with size := (3 : Int) }
    ∧ demoData.entry.size = (3 : Int) :=
  write_uses_actual_bytes demoHandler demoCtxProj [] demoEntry [1, 2, 3] demoData
    rfl (by decide)

/-! ## C10 — a failed content read is silently treated as an empty upload -/

/-- A successful `writeFinish` in full: URL result, untouched context, the
single `writeAsset` storage call. -/
theorem writeFinish_all (h : UploadAssetHandler) (ctx : SessionCtx)
    (user : User) (entry1 : FileEntry) (origText : List Nat) (bucket : Bucket)
    (projectName : String) (dbCalls : List DbCall) (q : Nat)
    (hq : getBucketQuota ctx = some q)
    (hw : h.writeAsset ⟨entry1, origText, user, bucket, q⟩ = .ok ()) :
    writeFinish h ctx user entry1 origText bucket projectName dbCalls
      = ⟨.ok (h.cfg.assetURL user.name projectName
            (goReplaceOnce entry1.filepath ("/" ++ projectName ++ "/") "")),
          ctx, dbCalls, [.writeAsset ⟨entry1, origText, user, bucket, q⟩]⟩ := by
  unfold writeFinish
  simp only [hq, hw]

/-- C10: on a validated session (project already cached), if reading the
entry's content stream fails, `Write` does not surface the read failure: it
records the entry's size as `0`, persists an empty payload, and — when the
storage-write routine accepts it — returns the composed URL as a successful
upload. -/
theorem write_read_failure_silent (h : UploadAssetHandler) (ctx : SessionCtx)
    (hist : List DbCall) (e : FileEntry) (u : User) (b : Bucket) (q : Nat)
    (p : Project)
    (hu : ctx.user = some (some u)) (hb : ctx.bucket = some b)
    (hbn : b.name ≠ "") (hq : ctx.bucketQuota = some q)
    (hp : ctx.project = some p)
    (hr : e.reader = none)
    (hw : h.writeAsset ⟨{ e with size := 0 }, [], u, b, q⟩ = .ok ()) :
    (h.Write ctx hist e).res
      = .ok (h.cfg.assetURL u.name (getProjectName e)
          (goReplaceOnce e.filepath ("/" ++ getProjectName e ++ "/") ""))
    ∧ (h.Write ctx hist e).dbCalls = []
    ∧ (h.Write ctx hist e).storageCalls
        = [.writeAsset ⟨{ e with size := 0 }, [], u, b, q⟩] := by
  have hgu : getUser ctx = .ok u := by simp [getUser, hu]
  have hgb : getBucket ctx = .ok b := by simp [getBucket, hb, hbn]
  have hgq : getBucketQuota ctx = some q := by simp [getBucketQuota, hq]
  rw [hr] at hw
  simp only [UploadAssetHandler.Write, hgu, hgb, getProject, hp, hr]
  simp only [List.length_nil, Nat.cast_zero, getProjectName]
  have hfin := writeFinish_all h ctx u { e with size := 0, reader := none } [] b
    (firstSegment e.filepath) [] q hgq hw
  rw [hfin]
  exact ⟨rfl, rfl, rfl⟩

/-- C10 witness: a concrete entry whose content read fails is persisted as an
empty object with size `0` and yields a URL. -/
theorem write_read_failure_witness :
    (demoHandler.Write demoCtxProj [] ⟨"/blog/broken.md", 99, none, 0⟩).res
      = .ok (demoHandler.cfg.assetURL aliceUser.name
          (getProjectName ⟨"/blog/broken.md", 99, none, 0⟩)
          (goReplaceOnce "/blog/broken.md"
            ("/" ++ getProjectName ⟨"/blog/broken.md", 99, none, 0⟩ ++ "/") ""))
    ∧ (demoHandler.Write demoCtxProj [] ⟨"/blog/broken.md", 99, none, 0⟩).dbCalls = []
    ∧ (demoHandler.Write demoCtxProj [] ⟨"/blog/broken.md", 99, none, 0⟩).storageCalls
        = [.writeAsset ⟨⟨"/blog/broken.md", 0, none, 0⟩, [], aliceUser, ⟨"static-1"⟩, 42⟩] :=
  write_read_failure_silent demoHandler demoCtxProj [] ⟨"/blog/broken.md", 99, none, 0⟩
    aliceUser ⟨"static-1"⟩ 42 ⟨1, "blog", "blog"⟩ rfl rfl (by decide) rfl rfl rfl rfl

/-! ## C8 — the returned URL's composition -/

/-- A list is a prefix (in the `Bool` sense) of itself followed by anything. -/
theorem isPrefixOf_append_self (l r : List Char) : l.isPrefixOf (l ++ r) = true := by
  induction l with
  | nil => simp
  | cons c cs ih => simp [List.isPrefixOf_cons₂, ih]

/-- Replacing the first occurrence when the pattern sits at the front removes
exactly that front occurrence. -/
theorem replaceOnceL_left (pat r new : List Char) (hne : pat ≠ []) :
    replaceOnceL pat new (pat ++ r) = new ++ r := by
  cases pat with
  | nil => exact absurd rfl hne
  | cons c cs =>
    show replaceOnceL (c :: cs) new (c :: (cs ++ r)) = new ++ r
    unfold replaceOnceL
    rw [if_pos]
    · simp [List.drop_succ_cons, List.drop_left]
    · exact isPrefixOf_append_self (c :: cs) r

/-- Go `strings.Replace(path, "/"++seg++"/", "", 1)` on a path that starts
with `"/"++seg++"/"` strips exactly that leading segment. -/
theorem goReplaceOnce_strip (seg rest : String) :
    goReplaceOnce ("/" ++ seg ++ "/" ++ rest) ("/" ++ seg ++ "/") "" = rest := by
  unfold goReplaceOnce
  have h1 : ("/" ++ seg ++ "/" ++ rest).data = ("/" ++ seg ++ "/").data ++ rest.data :=
    String.data_append _ _
  rw [h1, replaceOnceL_left _ _ _ (by simp [String.data_append])]
  rfl

/-- `takeWhile (· != '/')` of a separator-free block followed by a separator
returns exactly the block. -/
theorem takeWhile_until_sep (l r : List Char) (hl : '/' ∉ l) :
    (l ++ '/' :: r).takeWhile (fun c => c != '/') = l := by
  induction l with
  | nil => simp [List.takeWhile_cons]
  | cons c cs ih =>
    have hc : c ≠ '/' := by
      intro hcc
      exact hl (hcc ▸ List.mem_cons_self c cs)
    have hcs : '/' ∉ cs := fun hm => hl (List.mem_cons_of_mem c hm)
    simp [List.takeWhile_cons, hc, ih hcs]

/-- List-level form of the first-segment computation on a well-formed
absolute path. -/
theorem firstSegment_data (sd r : List Char) (hne : sd ≠ []) (hsl : '/' ∉ sd) :
    (('/' :: (sd ++ '/' :: r)).dropWhile (fun c => c == '/')).takeWhile
        (fun c => c != '/') = sd := by
  cases sd with
  | nil => exact absurd rfl hne
  | cons c cs =>
    have hc : c ≠ '/' := by
      intro hcc
      exact hsl (hcc ▸ List.mem_cons_self c cs)
    simp only [List.cons_append, List.dropWhile_cons]
    simp only [beq_self_eq_true, if_true]
    simp only [beq_iff_eq, hc, if_false]
    have := takeWhile_until_sep (c :: cs) r hsl
    rw [List.cons_append] at this
    exact this

/-- The first path segment of `"/" ++ seg ++ "/" ++ rest` is `seg`, for a
nonempty separator-free `seg`. -/
theorem firstSegment_abs (seg rest : String) (hne : seg ≠ "")
    (hsl : '/' ∉ seg.data) :
    firstSegment ("/" ++ seg ++ "/" ++ rest) = seg := by
  unfold firstSegment
  have hdata : ("/" ++ seg ++ "/" ++ rest).data
      = '/' :: (seg.data ++ '/' :: rest.data) := by
    simp [String.data_append]
  have hsd : seg.data ≠ [] := by
    intro h0
    apply hne
    cases seg with
    | mk d =>
      simp only at h0
      rw [show ("" : String) = String.mk [] from rfl, h0]
  rw [hdata, firstSegment_data seg.data rest.data hsd hsl]

/-- A successful `Write` returns the URL composed by the configured scheme
from the cached identity's name, the freshly derived project name, and the
path with the first occurrence of `"/<project>/"` removed. -/
theorem write_ok_url (h : UploadAssetHandler) (ctx : SessionCtx)
    (hist : List DbCall) (e : FileEntry) (u : User) (url : String)
    (hu : ctx.user = some (some u))
    (hres : (h.Write ctx hist e).res = Res.ok url) :
    url = h.cfg.assetURL u.name (getProjectName e)
      (goReplaceOnce e.filepath ("/" ++ getProjectName e ++ "/") "") := by
  have hgu : getUser ctx = .ok u := by simp [getUser, hu]
  simp only [UploadAssetHandler.Write, hgu] at hres
  cases hgb : getBucket ctx with
  | panic => simp [hgb] at hres
  | err e2 => simp [hgb] at hres
  | ok bucket =>
    simp only [hgb] at hres
    cases hgp : getProject ctx with
    | some p =>
      simp only [hgp] at hres
      have h9 := writeFinish_ok_url h _ u _ _ bucket _ _ url hres
      exact h9
    | none =>
      simp only [hgp] at hres
      split at hres
      · split at hres
        · simp at hres
        · have h9 := writeFinish_ok_url h _ u _ _ bucket _ _ url hres
          exact h9
      · split at hres
        · simp at hres
        · split at hres
          · simp at hres
          · have h9 := writeFinish_ok_url h _ u _ _ bucket _ _ url hres
            exact h9

/-- C8: on a successful `Write` of an entry whose path has the well-formed
shape `"/" ++ seg ++ "/" ++ rest` (`seg` nonempty and separator-free), the
derived project name is the first path segment `seg` and the returned URL is
the configured composition of the identity's name, `seg`, and the path with
exactly the leading `"/<seg>/"` stripped (later occurrences inside `rest`
survive). -/
theorem write_url_composition (h : UploadAssetHandler) (ctx : SessionCtx)
    (hist : List DbCall) (e : FileEntry) (u : User) (url : String)
    (seg rest : String)
    (hu : ctx.user = some (some u))
    (hres : (h.Write ctx hist e).res = Res.ok url)
    (hpath : e.filepath = "/" ++ seg ++ "/" ++ rest)
    (hne : seg ≠ "") (hsl : '/' ∉ seg.data) :
    getProjectName e = seg
    ∧ url = h.cfg.assetURL u.name seg rest := by
  have hseg : getProjectName e = seg := by
    unfold getProjectName
    rw [hpath]
    exact firstSegment_abs seg rest hne hsl
  refine ⟨hseg, ?_⟩
  have hurl := write_ok_url h ctx hist e u url hu hres
  rw [hurl, hseg, hpath, goReplaceOnce_strip]

/-- C8 witness: the theorem at a concrete successful write of
`/blog/post1.md` by `alice`. -/
theorem write_url_composition_witness :
    getProjectName demoEntry = "blog"
    ∧ "alice|blog|post1.md"
        = demoHandlerUpdate.cfg.assetURL aliceUser.name "blog" "post1.md" :=
  write_url_composition demoHandlerUpdate demoCtx [] demoEntry aliceUser
    "alice|blog|post1.md" "blog" "post1.md" rfl rfl rfl (by decide) (by decide)

/-! ## C1 — exactly one project resolution per session -/

/-- A first `Write` on a validated session with no cached project performs
exactly the one resolution sequence of DB calls and caches the resolved
project. -/
theorem write_resolves_project (h : UploadAssetHandler) (ctx : SessionCtx)
    (hist : List DbCall) (e : FileEntry) (u : User) (b : Bucket) (q : Nat)
    (hu : ctx.user = some (some u)) (hb : ctx.bucket = some b) (hbn : b.name ≠ "")
    (hq : ctx.bucketQuota = some q) (hp : ctx.project = none)
    (hok : resolutionOk h.dbPool hist u.id (getProjectName e) = true) :
    (h.Write ctx hist e).dbCalls
        = projectResolutionCalls h.dbPool hist u.id (getProjectName e)
    ∧ ∃ p : Project, (h.Write ctx hist e).ctx = { ctx with project := some p } := by
  have hgu : getUser ctx = .ok u := by simp [getUser, hu]
  have hgb : getBucket ctx = .ok b := by simp [getBucket, hb, hbn]
  unfold resolutionOk at hok
  simp only [getProjectName] at hok
  unfold projectResolutionCalls
  simp only [getProjectName]
  simp only [UploadAssetHandler.Write, hgu, hgb, getProject, hp]
  simp only [getProjectName]
  cases hfind : h.dbPool.findProjectByName hist u.id (firstSegment e.filepath) with
  | ok project =>
    simp only [hfind] at hok
    simp only [hfind]
    cases hupd : h.dbPool.updateProject
        (hist ++ [DbCall.findProjectByName u.id (firstSegment e.filepath)])
        u.id (firstSegment e.filepath) with
    | error e2 => simp [hupd] at hok
    | ok u2 =>
      simp only [hupd]
      constructor
      · exact (writeFinish_state h _ u _ _ b _ _).2
      · exact ⟨project, (writeFinish_state h _ u _ _ b _ _).1⟩
  | error e2 =>
    simp only [hfind] at hok
    simp only [hfind]
    cases hins : h.dbPool.insertProject
        (hist ++ [DbCall.findProjectByName u.id (firstSegment e.filepath)])
        u.id (firstSegment e.filepath) (firstSegment e.filepath) with
    | error e3 => simp [hins] at hok
    | ok n =>
      simp only [hins] at hok
      simp only [hins]
      cases hfind2 : h.dbPool.findProjectByName
          (hist ++ [DbCall.findProjectByName u.id (firstSegment e.filepath),
            DbCall.insertProject u.id (firstSegment e.filepath) (firstSegment e.filepath)])
          u.id (firstSegment e.filepath) with
      | error e3 => simp [hfind2] at hok
      | ok project =>
        simp only [hfind2]
        constructor
        · exact (writeFinish_state h _ u _ _ b _ _).2
        · exact ⟨project, (writeFinish_state h _ u _ _ b _ _).1⟩

/-- C1: in one validated session, writing `e` followed by any further entries
`es` performs the project lookup / update-or-insert-and-re-fetch sequence of
DB calls exactly once — during the first write — and the whole session's
project-store call trace equals that one sequence; the project cached by the
first write is reused unchanged for every subsequent write, even though the
entries in `es` may have entirely different first path segments. -/
theorem session_project_resolution_once (h : UploadAssetHandler)
    (ctx : SessionCtx) (hist : List DbCall) (u : User) (b : Bucket) (q : Nat)
    (e : FileEntry) (es : List FileEntry)
    (hu : ctx.user = some (some u)) (hb : ctx.bucket = some b) (hbn : b.name ≠ "")
    (hq : ctx.bucketQuota = some q) (hp : ctx.project = none)
    (hok : resolutionOk h.dbPool hist u.id (getProjectName e) = true) :
    (h.Write ctx hist e).dbCalls
        = projectResolutionCalls h.dbPool hist u.id (getProjectName e)
    ∧ (h.writeMany ctx hist (e :: es)).dbCalls = (h.Write ctx hist e).dbCalls
    ∧ ∃ p : Project,
        (h.Write ctx hist e).ctx = { ctx with project := some p }
        ∧ (h.writeMany ctx hist (e :: es)).ctx = { ctx with project := some p } := by
  obtain ⟨hdb, p, hctx⟩ := write_resolves_project h ctx hist e u b q hu hb hbn hq hp hok
  have hrest := writeMany_cached_project h es (h.Write ctx hist e).ctx
    (hist ++ (h.Write ctx hist e).dbCalls) p (by rw [hctx])
  refine ⟨hdb, ?_, p, hctx, ?_⟩
  · show (h.writeMany ctx hist (e :: es)).dbCalls = (h.Write ctx hist e).dbCalls
    simp only [UploadAssetHandler.writeMany]
    rw [hrest.2, List.append_nil]
  · show (h.writeMany ctx hist (e :: es)).ctx = { ctx with project := some p }
    simp only [UploadAssetHandler.writeMany]
    rw [hrest.1, hctx]

/-- C1 witness: `alice` uploads `/blog/post1.md` then `/docs/readme.md` in one
session against the concrete oracle whose first lookup misses: the session's
whole DB trace is the single find-insert-refind sequence, performed by the
first write, and the cached `blog` project is reused for the `docs` file. -/
theorem session_project_resolution_once_witness :
    (demoHandler.Write demoCtx [] demoEntry).dbCalls
        = projectResolutionCalls demoHandler.dbPool [] aliceUser.id
            (getProjectName demoEntry)
    ∧ (demoHandler.writeMany demoCtx [] [demoEntry, demoEntry2]).dbCalls
        = (demoHandler.Write demoCtx [] demoEntry).dbCalls
    ∧ ∃ p : Project,
        (demoHandler.Write demoCtx [] demoEntry).ctx
          = { demoCtx with project := some p }
        ∧ (demoHandler.writeMany demoCtx [] [demoEntry, demoEntry2]).ctx
          = { demoCtx with project := some p } :=
  session_project_resolution_once demoHandler demoCtx [] aliceUser ⟨"static-1"⟩ 42
    demoEntry [demoEntry2] rfl rfl (by decide) rfl rfl (by decide)
